import Mathlib

/-!
Verification development for the argus agent core.

This file gives a shallow embedding, in Lean 4, of the security-relevant
parts of the argus repository: the filesystem sandbox (both the richer
CLI-variant in package tools and the lighter SSE-variant in package agent),
its file-read helpers, the budget tracker, the tool executor with its audit
log, the SSE broker, and the agent runner loop.  Pure Go functions become
Lean functions; the filesystem (symlink resolution, stat) is an explicit
parameter; Go maps are association lists; Go float64 amounts are modelled
as rationals; reference semantics, where it matters, is modelled with an
explicit heap of map cells.  Theorems at the end settle the specification
claims against these definitions.
-/

deriving instance DecidableEq for Except

namespace Argus

/-! ## Go path model (path/filepath, Unix rules)

The sandbox code uses filepath.IsAbs, filepath.Clean, filepath.Join,
filepath.Dir and string prefix checks.  We model paths as strings with
the forward slash as separator, following the Go library behaviour.
-/

def pathSep : String := "/"

/-- strings.HasPrefix(s, pre), computed on the character lists so that it
evaluates inside the kernel. -/
def strStarts (s pre : String) : Bool := pre.data.isPrefixOf s.data

/-- strings.ToLower for the ASCII range that file extensions use. -/
def strToLower (s : String) : String := String.mk (s.data.map Char.toLower)

/-- filepath.IsAbs on Unix: the path starts with a slash. -/
def isAbs (p : String) : Bool :=
  match p.data with
  | c :: _ => c = '/'
  | [] => false

/-- Split a character list at every slash. -/
def splitSlash : List Char → List Char → List String
  | [], acc => [String.mk acc.reverse]
  | c :: rest, acc =>
      if c = '/' then String.mk acc.reverse :: splitSlash rest []
      else splitSlash rest (c :: acc)

/-- Split a path into its non-empty components. -/
def splitComps (p : String) : List String :=
  (splitSlash p.data []).filter (fun c => c ≠ "")

/-- Join components with the separator. -/
def interSlash : List String → String
  | [] => ""
  | [c] => c
  | c :: rest => c ++ "/" ++ interSlash rest

/-- One step of the lexical cleaning loop of filepath.Clean: the
accumulator holds the already-emitted components in reverse order. -/
def cleanStep (abs : Bool) (acc : List String) (c : String) : List String :=
  if c = "." then acc
  else if c = ".." then
    match acc with
    | [] => if abs then [] else [".."]
    | a :: rest => if a = ".." then c :: acc else rest
  else c :: acc

/-- The component list produced by filepath.Clean. -/
def cleanComps (abs : Bool) (comps : List String) : List String :=
  (comps.foldl (cleanStep abs) []).reverse

/-- filepath.Clean on Unix: purely lexical simplification, removing "."
and resolving ".." where possible; an empty result is "." (or "/" for an
absolute path). -/
def clean (p : String) : String :=
  let out := cleanComps (isAbs p) (splitComps p)
  if isAbs p then "/" ++ interSlash out
  else if out = [] then "." else interSlash out

/-- filepath.Join of two elements: empty elements are dropped, otherwise
the elements are joined with the separator and the result is Cleaned. -/
def joinPath (a b : String) : String :=
  if a = "" then (if b = "" then "" else clean b)
  else if b = "" then clean a
  else clean (a ++ "/" ++ b)

/-- filepath.Dir for already-Cleaned inputs (the only way the sandbox
calls it): drop the final component; a single-component relative path
gives ".", and the root gives "/". -/
def dirPath (p : String) : String :=
  let comps := splitComps p
  if isAbs p then
    if comps.length ≤ 1 then "/"
    else "/" ++ interSlash comps.dropLast
  else
    if comps.length ≤ 1 then "."
    else interSlash comps.dropLast

/-! ## Filesystem abstraction

filepath.EvalSymlinks either resolves a path to its canonical on-disk
form, fails because some element does not exist, or fails with another
error.  The CLI-variant sandbox falls back to the parent directory on any
EvalSymlinks error; the SSE-variant does so only when os.IsNotExist holds,
so the model keeps the two failure kinds apart.
-/

inductive EvalRes where
  | ok (p : String)
  | notExist
  | fail
deriving Repr, DecidableEq

structure GoFS where
  evalSymlinks : String → EvalRes

/-! ## CLI-variant sandbox (package tools, Sandbox.ValidatePath) -/

namespace CoreSandbox

/-- Sandbox.isWithinRoot: the resolved root itself is valid, otherwise the
path must start with the root followed by the path separator. -/
def isWithinRoot (root resolvedPath : String) : Bool :=
  resolvedPath == root || strStarts resolvedPath (root ++ pathSep)

/-- The absolute, Cleaned form of the requested path computed at the top
of Sandbox.ValidatePath: absolute paths are Cleaned, relative paths are
Joined to the resolved root. -/
def absOf (root requested : String) : String :=
  if isAbs requested then clean requested
  else clean (joinPath root requested)

/-- Sandbox.ValidatePath of the tools package: resolve symlinks on the
joined path; on failure resolve the parent directory instead and accept
only if the parent is within the root; otherwise accept exactly when the
resolved path is within the root. -/
def ValidatePath (fs : GoFS) (root requested : String) : Except String String :=
  let absPath := absOf root requested
  match fs.evalSymlinks absPath with
  | .ok resolvedPath =>
      if isWithinRoot root resolvedPath then .ok resolvedPath
      else .error ("sandbox: path " ++ requested ++ " resolves to " ++ resolvedPath ++
                   " which is outside sandbox root " ++ root)
  | _ =>
      match fs.evalSymlinks (dirPath absPath) with
      | .ok resolvedParent =>
          if isWithinRoot root resolvedParent then .ok absPath
          else .error ("sandbox: path " ++ requested ++ " resolves outside sandbox root")
      | _ => .error ("sandbox: path " ++ requested ++ " does not exist and parent cannot be resolved")

/-- Sandbox.ValidateOutputPath: same containment check on a path returned
by an external helper, without re-resolving symlinks. -/
def ValidateOutputPath (root outputPath : String) : Except String String :=
  let absPath := if isAbs outputPath then clean outputPath
                 else clean (joinPath root outputPath)
  if isWithinRoot root absPath then .ok absPath
  else .error ("sandbox: output path " ++ outputPath ++ " is outside sandbox root")

end CoreSandbox

/-! ## SSE-variant sandbox (package agent, Sandbox.ValidatePath)

This variant rejects absolute paths and raw ".." traversal up front, then
evaluates symlinks; its containment check is strings.HasPrefix(resolved,
root) with no separator appended.
-/

namespace SSESandbox

def ValidatePath (fs : GoFS) (root relPath : String) : Except String String :=
  if isAbs relPath then
    .error ("sandbox: absolute paths are not allowed: " ++ relPath)
  else
    let cleaned := clean relPath
    if cleaned = ".." ∨ strStarts cleaned (".." ++ pathSep) then
      .error ("sandbox: path traversal detected: " ++ relPath)
    else
      let joined := joinPath root cleaned
      match fs.evalSymlinks joined with
      | .ok resolved =>
          if strStarts resolved root then .ok resolved
          else .error ("sandbox: path " ++ relPath ++ " resolves outside sandbox (to " ++ resolved ++ ")")
      | .notExist =>
          match fs.evalSymlinks (dirPath joined) with
          | .ok resolvedParent =>
              if strStarts resolvedParent root then .ok joined
              else .error ("sandbox: path escapes sandbox via parent symlink: " ++ relPath)
          | _ => .error ("sandbox: resolve parent path failed")
      | .fail => .error ("sandbox: resolve path failed")

def bannedExtsList : List String :=
  [".exe", ".dll", ".so", ".png", ".jpg", ".jpeg", ".gif", ".pdf", ".zip",
   ".tar", ".gz", ".mp4", ".mp3", ".wav", ".ico", ".svg", ".woff", ".ttf"]

/-- The bannedExts map of the agent package, as a membership test. -/
def bannedExts (ext : String) : Bool := bannedExtsList.contains ext

/-- maxFileReadSize: 500 * 1024 bytes (500 KB). -/
def maxFileReadSize : Int := 500 * 1024

/-- filepath.Ext: the suffix beginning at the final dot of the final path
element, or empty when the final element has no dot.  The scan walks the
characters from the end until a dot or a separator. -/
def extScan : List Char → List Char → String
  | [], _ => ""
  | c :: rest, acc =>
      if c = '/' then ""
      else if c = '.' then String.mk (c :: acc)
      else extScan rest (c :: acc)

def extOf (p : String) : String := extScan p.data.reverse []

/-- A file as the model filesystem stats and reads it.  The size field is
what Stat reports; the content is what the reader actually delivers, so
the two can legitimately disagree (the file may change between the two
system calls), which is exactly why ReadFile checks both. -/
structure FileNode where
  isDir : Bool
  size : Int
  content : List Nat
deriving Repr, DecidableEq

/-- Filesystem abstraction for the SSE-variant sandbox reads: symlink
resolution plus the combined Open/Stat of a path. -/
structure ReadFS where
  evalSymlinks : String → EvalRes
  stat : String → Option FileNode

def ReadFS.toGoFS (fs : ReadFS) : GoFS := { evalSymlinks := fs.evalSymlinks }

/-- Sandbox.ReadFile of the agent package: validate the path, reject
banned binary/media extensions, open and stat the file, reject
directories, reject files whose stat size exceeds maxFileReadSize, read
through a limited reader of maxFileReadSize+1 bytes, and reject again if
more than maxFileReadSize bytes came back. -/
def ReadFile (fs : ReadFS) (root relPath : String) : Except String (List Nat) :=
  match ValidatePath fs.toGoFS root relPath with
  | .error e => .error e
  | .ok safePath =>
      let ext := strToLower (extOf relPath)
      if bannedExts ext then
        .error "Error: Cannot read binary or media files. Focus on source code."
      else
        match fs.stat safePath with
        | none => .error ("sandbox: open " ++ relPath ++ " failed")
        | some info =>
            if info.isDir then
              .error ("sandbox: " ++ relPath ++ " is a directory, not a file")
            else if info.size > maxFileReadSize then
              .error "Error: File is too large to read (exceeds 500KB limit)."
            else
              let data := info.content.take (maxFileReadSize + 1).toNat
              if (data.length : Int) > maxFileReadSize then
                .error ("sandbox: file " ++ relPath ++ " exceeds byte read limit")
              else .ok data

end SSESandbox

/-- isBinary of the SSE-variant runner: true when any of the first 512
bytes is the NUL byte.  Used by the search-path file walker, which skips
(not errors on) binary files. -/
def isBinary (data : List Nat) : Bool :=
  (data.take 512).any (fun b => b == 0)

/-! ## Budget tracker (package agent)

Go ints become Int, float64 dollar amounts become Rat, and time.Duration
becomes Int nanoseconds.  Exceeded reads the wall clock through
time.Since(startedAt); the model passes that elapsed value explicitly.
The numeric rendering inside the reason strings abbreviates Go's
fmt verbs; only the shape and non-emptiness of the strings matter to the
claims.
-/

structure Budget where
  MaxTokens : Int
  MaxCostUSD : Rat
  MaxToolCalls : Int
  MaxDuration : Int
  MaxTurns : Int
deriving Repr, DecidableEq

def DefaultBudget : Budget :=
  { MaxTokens := 500000
    MaxCostUSD := 2
    MaxToolCalls := 200
    MaxDuration := 30 * 60 * 1000000000
    MaxTurns := 50 }

structure BudgetTracker where
  budget : Budget
  tokens : Int
  costUSD : Rat
  toolCalls : Int
  turns : Int
deriving Repr, DecidableEq

def NewBudgetTracker (b : Budget) : BudgetTracker :=
  { budget := b, tokens := 0, costUSD := 0, toolCalls := 0, turns := 0 }

/-- BudgetTracker.Record: add the turn's usage to every accumulator and
count one turn. -/
def BudgetTracker.Record (bt : BudgetTracker) (inputTokens outputTokens : Int)
    (costUSD : Rat) (toolCallsThisTurn : Int) : BudgetTracker :=
  { bt with
    tokens := bt.tokens + inputTokens + outputTokens
    costUSD := bt.costUSD + costUSD
    toolCalls := bt.toolCalls + toolCallsThisTurn
    turns := bt.turns + 1 }

def intStr (n : Int) : String := toString n

def ratStr (q : Rat) : String := toString q

/-- BudgetTracker.Exceeded: the first dimension whose positive limit has
been reached wins; a zero (or negative) limit is ignored; the empty
string means within limits.  elapsed stands for time.Since(startedAt). -/
def BudgetTracker.Exceeded (bt : BudgetTracker) (elapsed : Int) : String :=
  if bt.budget.MaxTokens > 0 ∧ bt.tokens ≥ bt.budget.MaxTokens then
    "token limit reached (" ++ intStr bt.tokens ++ "/" ++ intStr bt.budget.MaxTokens ++ ")"
  else if bt.budget.MaxCostUSD > 0 ∧ bt.costUSD ≥ bt.budget.MaxCostUSD then
    "cost limit reached ($" ++ ratStr bt.costUSD ++ "/$" ++ ratStr bt.budget.MaxCostUSD ++ ")"
  else if bt.budget.MaxToolCalls > 0 ∧ bt.toolCalls ≥ bt.budget.MaxToolCalls then
    "tool call limit reached (" ++ intStr bt.toolCalls ++ "/" ++ intStr bt.budget.MaxToolCalls ++ ")"
  else if bt.budget.MaxDuration > 0 ∧ elapsed ≥ bt.budget.MaxDuration then
    "duration limit reached (" ++ intStr elapsed ++ "/" ++ intStr bt.budget.MaxDuration ++ ")"
  else if bt.budget.MaxTurns > 0 ∧ bt.turns ≥ bt.budget.MaxTurns then
    "turn limit reached (" ++ intStr bt.turns ++ "/" ++ intStr bt.budget.MaxTurns ++ ")"
  else ""

/-- BudgetTracker.Summary. -/
def BudgetTracker.Summary (bt : BudgetTracker) (elapsed : Int) : String :=
  "Tokens: " ++ intStr bt.tokens ++ " | Cost: $" ++ ratStr bt.costUSD ++
  " | Tool calls: " ++ intStr bt.toolCalls ++ " | Turns: " ++ intStr bt.turns ++
  " | Duration: " ++ intStr elapsed

def BudgetTracker.TotalCost (bt : BudgetTracker) : Rat := bt.costUSD

/-! ## Go map values and association-list maps

Tool parameters are Go maps from string to any.  The value universe here
covers what the executor and runner actually store: strings, numbers and
the internal context object that Execute smuggles under the "__ctx" key.
-/

inductive GoVal where
  | str (s : String)
  | num (n : Int)
  | ctxVal
deriving Repr, DecidableEq

abbrev GoMap := List (String × GoVal)

def mapLookup (m : GoMap) (k : String) : Option GoVal :=
  match m with
  | [] => none
  | (k2, v) :: rest => if k2 = k then some v else mapLookup rest k

def mapInsert (m : GoMap) (k : String) (v : GoVal) : GoMap :=
  match m with
  | [] => [(k, v)]
  | (k2, v2) :: rest => if k2 = k then (k, v) :: rest else (k2, v2) :: mapInsert rest k v

/-- The zero-value string type assertion v, _ := m[k].(string): the
string value when present, "" otherwise. -/
def getStr (m : GoMap) (k : String) : String :=
  match mapLookup m k with
  | some (.str s) => s
  | _ => ""

/-! ## Tool results and the tool executor (package tools) -/

structure ToolResult where
  Content : String
  IsError : Bool
  Metadata : GoMap := []
deriving Repr, DecidableEq

/-- The audit-log copy of the parameters: the loop in Execute copies
every key except the internal "__ctx" entry into a fresh map. -/
def cleanParamsOf : GoMap → GoMap
  | [] => []
  | (k, v) :: rest =>
      if k ≠ "__ctx" then (k, v) :: cleanParamsOf rest else cleanParamsOf rest

structure ToolLogEntry where
  ToolName : String
  Params : GoMap
  Result : ToolResult
  DurationMs : Int
deriving Repr, DecidableEq

def lookupTool (tools : List (String × (GoMap → ToolResult))) (name : String) :
    Option (GoMap → ToolResult) :=
  match tools with
  | [] => none
  | (n, f) :: rest => if n = name then some f else lookupTool rest name

/-- ToolExecutor.Execute on the non-timeout path, sequentially: resolve
the tool (unknown names give an error result and no audit entry), insert
the timeout context into the caller's parameter map under "__ctx", run
the tool, and append an audit entry whose parameter snapshot is a fresh
map with "__ctx" stripped.  The returned GoMap is the caller's map after
the call — Go mutates it in place. -/
def ToolExecutor.Execute (tools : List (String × (GoMap → ToolResult)))
    (toolName : String) (params : GoMap) (durationMs : Int) :
    ToolResult × GoMap × List ToolLogEntry :=
  match lookupTool tools toolName with
  | none =>
      ({ Content := "Unknown tool: " ++ toolName, IsError := true }, params, [])
  | some tool =>
      let params2 := mapInsert params "__ctx" GoVal.ctxVal
      let result := tool params2
      let entry : ToolLogEntry :=
        { ToolName := toolName
          Params := cleanParamsOf params2
          Result := result
          DurationMs := durationMs }
      (result, params2, [entry])

/-! ## Audit log under a reference-semantics heap (ToolLogger)

Go's ToolLogger.Entries copies the entry slice with make+copy.  Copying a
ToolLogEntry struct copies its map *headers*: the Params map of a copied
entry is the same heap object as the stored entry's Params map.  To state
anything about mutation through a snapshot we make that sharing explicit:
a heap is a list of map cells, and entries hold cell indices.
-/

abbrev Heap := List GoMap

def heapRead (h : Heap) (ref : Nat) : GoMap := h.getD ref []

def heapWrite (h : Heap) (ref : Nat) (k : String) (v : GoVal) : Heap :=
  h.set ref (mapInsert (heapRead h ref) k v)

/-- A ToolLogEntry as stored, with its Params map held by reference. -/
structure LogEntryRef where
  ToolName : String
  ParamsRef : Nat
  Result : ToolResult
  DurationMs : Int
deriving Repr, DecidableEq

structure ToolLogger where
  entries : List LogEntryRef
deriving Repr, DecidableEq

/-- ToolLogger.Log: append the entry. -/
def ToolLogger.Log (l : ToolLogger) (e : LogEntryRef) : ToolLogger :=
  { entries := l.entries ++ [e] }

/-- ToolLogger.Entries: make a new slice of the same length and copy each
entry struct into it.  The copies carry the same ParamsRef cells — the
copy is one level deep only. -/
def ToolLogger.Entries (l : ToolLogger) : List LogEntryRef :=
  l.entries.map (fun e => e)

/-- What a reader of the audit trail sees as the parameters of a stored
entry: the current contents of the entry's Params cell. -/
def viewEntryParams (h : Heap) (e : LogEntryRef) : GoMap :=
  heapRead h e.ParamsRef

/-! ## SSE broker and the runner's event publishing (SSE variant)

A Go channel with a buffer is a bounded queue.  A non-blocking send
(select with default) either enqueues or reports full; a plain send on a
full channel blocks the sender, which the model renders as none.
-/

structure SSEEvent where
  Event : String
  Data : String
deriving Repr, DecidableEq

structure Chan where
  cap : Nat
  buf : List SSEEvent
deriving Repr, DecidableEq

/-- Non-blocking send: select case ch <- e / default. -/
def trySend (c : Chan) (e : SSEEvent) : Option Chan :=
  if c.buf.length < c.cap then some { c with buf := c.buf ++ [e] } else none

/-- Non-blocking receive: select case <-ch / default. -/
def tryRecv (c : Chan) : Option (SSEEvent × Chan) :=
  match c.buf with
  | [] => none
  | x :: xs => some (x, { c with buf := xs })

/-- SSEBroker.Publish on one channel: try to send; when full, drop the
oldest buffered event and retry once; when still full, drop the incoming
event and record a warning.  Always returns; the Bool is true when the
incoming event was dropped with a warning. -/
def SSEBroker.Publish (c : Chan) (e : SSEEvent) : Chan × Bool :=
  match trySend c e with
  | some c2 => (c2, false)
  | none =>
      let c1 := match tryRecv c with
                | some (_, c2) => c2
                | none => c
      match trySend c1 e with
      | some c2 => (c2, false)
      | none => (c1, true)

/-- Runner.publishEvent of the SSE variant: a plain blocking channel send
r.eventCh <- event.  On a full channel the send does not complete, which
the model renders as none — the runner goroutine is blocked. -/
def Runner.publishEvent (c : Chan) (e : SSEEvent) : Option Chan :=
  trySend c e

/-- GetOrCreateChannel allocates the per-session channel with capacity
256. -/
def sessionChanCap : Nat := 256

/-! ## Provider stream and message shapes (package providers) -/

structure ToolCall where
  ID : String
  Name : String
  Params : GoMap
deriving Repr, DecidableEq

structure Usage where
  InputTokens : Int
  OutputTokens : Int
  CostUSD : Rat
deriving Repr, DecidableEq

/-- One provider stream event, as the runner's switch sees it.  The
tool-call payload is optional because the Go field is a nullable pointer
the runner checks before collecting.  otherEv stands for any event type
the switch has no case for. -/
inductive StreamEvent where
  | textDelta (text : String)
  | toolCallEv (tc : Option ToolCall)
  | doneEv (usage : Option Usage)
  | errorEv (msg : String)
  | otherEv
deriving Repr, DecidableEq

inductive Block where
  | text (s : String)
  | toolCallB (tc : ToolCall)
  | toolResultB (toolCallId : String) (content : String) (isError : Bool)
deriving Repr, DecidableEq

structure Message where
  Role : String
  Content : List Block
deriving Repr, DecidableEq

/-- Run events as the CLI-variant runner emits them (agent name and
timestamp omitted: emit stamps every event the same way). -/
inductive RunEvent where
  | text (s : String)
  | toolCallRE (name : String)
  | toolResultRE (name : String) (content : String) (isError : Bool)
  | findingRecorded (s : String)
  | doneRE (s : String)
  | errorRE (s : String)
  | budgetExceeded (s : String)
deriving Repr, DecidableEq

/-! ## The store (package memory), as relational state -/

structure Finding where
  SessionID : String
  ProjectID : String
  Title : String
  Location : String
  Category : String
  Severity : String
  Confidence : String
  Description : String
  DataFlow : String
  FoundBy : String
deriving Repr, DecidableEq

structure InvestigatedArea where
  ProjectID : String
  SessionID : String
  Path : String
  Pat : String
  Agent : String
deriving Repr, DecidableEq

structure StoreState where
  findings : List Finding
  areas : List InvestigatedArea
  sessionStatus : Option String
  sessionCost : Rat
deriving Repr, DecidableEq

/-- Store.FindingExists: SELECT COUNT(*) on (project_id, location, title)
is positive. -/
def FindingExists (st : StoreState) (projectID location title : String) : Bool :=
  st.findings.any (fun f =>
    f.ProjectID == projectID && f.Location == location && f.Title == title)

/-- Store.CreateFinding: INSERT the row. -/
def CreateFinding (st : StoreState) (f : Finding) : StoreState :=
  { st with findings := st.findings ++ [f] }

def MarkInvestigated (st : StoreState) (a : InvestigatedArea) : StoreState :=
  { st with areas := st.areas ++ [a] }

def UpdateSessionStatus (st : StoreState) (status : String) : StoreState :=
  { st with sessionStatus := some status }

/-- Store.UpdateSessionCost: total_cost_usd = total_cost_usd + delta. -/
def UpdateSessionCost (st : StoreState) (c : Rat) : StoreState :=
  { st with sessionCost := st.sessionCost + c }

/-! ## The CLI-variant agent runner (package agent, Runner.run)

The provider is scripted as a list of turns, one entry per Complete
call: either a stream of events or an error from Complete itself.  An
exhausted script is modelled as Complete failing.  The wall clock that
Exceeded and Summary read is a function of the turn index.  The context
is never cancelled in this model, and the session runs in single-agent
mode (no channel), so read_channel and post_channel answer with the
single-mode error result exactly as the Go handlers do.
-/

structure RunnerConfig where
  SessionID : String
  ProjectID : String
  AgentName : String
deriving Repr, DecidableEq

def duplicateFindingMsg (title location : String) : String :=
  "duplicate finding: \"" ++ title ++ "\" at " ++ location ++ " already exists"

def recordedFindingMsg (title severity : String) : String :=
  "Finding recorded: " ++ title ++ " (severity: " ++ severity ++ ")"

/-- Runner.handleRecordFinding: validate the required fields, consult
FindingExists, and either report a duplicate (a non-error result, no
insert) or create the finding and emit finding_recorded. -/
def handleRecordFinding (cfg : RunnerConfig) (st : StoreState) (params : GoMap) :
    ToolResult × StoreState × List RunEvent :=
  let title := getStr params "title"
  let location := getStr params "location"
  let severity := getStr params "severity"
  let confidence := getStr params "confidence"
  let description := getStr params "description"
  let dataFlow := getStr params "data_flow"
  let category := getStr params "category"
  if title = "" ∨ location = "" ∨ description = "" then
    ({ Content := "record_finding requires title, location, and description", IsError := true },
     st, [])
  else if FindingExists st cfg.ProjectID location title then
    ({ Content := duplicateFindingMsg title location, IsError := false }, st, [])
  else
    let f : Finding :=
      { SessionID := cfg.SessionID
        ProjectID := cfg.ProjectID
        Title := title
        Location := location
        Category := category
        Severity := severity
        Confidence := confidence
        Description := description
        DataFlow := dataFlow
        FoundBy := cfg.AgentName }
    ({ Content := recordedFindingMsg title severity, IsError := false },
     CreateFinding st f,
     [RunEvent.findingRecorded ("[" ++ severity ++ "] " ++ title ++ " @ " ++ location)])

/-- Runner.handleMarkInvestigated. -/
def handleMarkInvestigated (cfg : RunnerConfig) (st : StoreState) (params : GoMap) :
    ToolResult × StoreState × List RunEvent :=
  let path := getStr params "path"
  let pat := getStr params "pattern"
  if path = "" ∨ pat = "" then
    ({ Content := "mark_investigated requires path and pattern", IsError := true }, st, [])
  else
    ({ Content := "Marked as investigated: " ++ path ++ " (" ++ pat ++ ")", IsError := false },
     MarkInvestigated st
       { ProjectID := cfg.ProjectID, SessionID := cfg.SessionID,
         Path := path, Pat := pat, Agent := cfg.AgentName },
     [])

/-- truncateResult: at most 200 characters plus an ellipsis. -/
def truncateResult (s : String) : String :=
  if s.length ≤ 200 then s else String.mk (s.data.take 200) ++ "..."

/-- Runner.executeTool: special runner tools are serviced in place; every
other name goes to the executor (abstracted here as a function from name
and params to a result) and its result is echoed as a tool_result run
event. -/
def executeTool (cfg : RunnerConfig) (execf : String → GoMap → ToolResult)
    (st : StoreState) (tc : ToolCall) : ToolResult × StoreState × List RunEvent :=
  if tc.Name = "record_finding" then handleRecordFinding cfg st tc.Params
  else if tc.Name = "read_channel" then
    ({ Content := "channel not available in single mode", IsError := true }, st, [])
  else if tc.Name = "post_channel" then
    ({ Content := "channel not available in single mode", IsError := true }, st, [])
  else if tc.Name = "mark_investigated" then handleMarkInvestigated cfg st tc.Params
  else
    let result := execf tc.Name tc.Params
    (result, st,
     [RunEvent.toolResultRE tc.Name (truncateResult result.Content) result.IsError])

/-- The accumulator of the stream-consumption loop (step 5 of the turn). -/
structure StreamAcc where
  assistantText : String
  toolCalls : List ToolCall
  usage : Option Usage
  streamError : Bool
  emitted : List RunEvent
deriving Repr, DecidableEq

def processEvent (acc : StreamAcc) (e : StreamEvent) : StreamAcc :=
  match e with
  | .textDelta t =>
      { acc with assistantText := acc.assistantText ++ t,
                 emitted := acc.emitted ++ [RunEvent.text t] }
  | .toolCallEv (some tc) =>
      { acc with toolCalls := acc.toolCalls ++ [tc],
                 emitted := acc.emitted ++ [RunEvent.toolCallRE tc.Name] }
  | .toolCallEv none => acc
  | .doneEv u => { acc with usage := u }
  | .errorEv m =>
      { acc with streamError := true, emitted := acc.emitted ++ [RunEvent.errorRE m] }
  | .otherEv => acc

def processStream (evs : List StreamEvent) : StreamAcc :=
  evs.foldl processEvent
    { assistantText := "", toolCalls := [], usage := none,
      streamError := false, emitted := [] }

/-- buildAssistantMessage: a text block when the text is non-empty,
followed by one tool_call block per collected call, in order. -/
def buildAssistantMessage (text : String) (toolCalls : List ToolCall) : Message :=
  { Role := "assistant"
    Content := (if text = "" then [] else [Block.text text]) ++
               toolCalls.map (fun tc => Block.toolCallB tc) }

/-- Step 6 of the turn: record usage into the tracker when the stream
delivered a final Usage. -/
def recordUsage (bt : BudgetTracker) (usage : Option Usage) (toolCallCount : Int) :
    BudgetTracker :=
  match usage with
  | some u => bt.Record u.InputTokens u.OutputTokens u.CostUSD toolCallCount
  | none => bt

def recordCost (st : StoreState) (usage : Option Usage) : StoreState :=
  match usage with
  | some u => UpdateSessionCost st u.CostUSD
  | none => st

/-- Step 9 of the turn: execute the collected calls in order, producing
one tool_result block per call (toolCallId = the call's ID), the store
state after all calls, and the run events of all calls in order. -/
def execCalls (cfg : RunnerConfig) (execf : String → GoMap → ToolResult) :
    StoreState → List ToolCall → List Block × StoreState × List RunEvent
  | st, [] => ([], st, [])
  | st, tc :: rest =>
      let r := executeTool cfg execf st tc
      let next := execCalls cfg execf r.2.1 rest
      (Block.toolResultB tc.ID r.1.Content r.1.IsError :: next.1,
       next.2.1,
       r.2.2 ++ next.2.2)

structure RunState where
  messages : List Message
  budget : BudgetTracker
  store : StoreState
  events : List RunEvent
deriving Repr, DecidableEq

/-- Runner.run, one recursive step per provider turn.  Each iteration:
check the budget, call the provider, fold the stream, fail the session on
a stream error, record usage and session cost, append the assistant
message, stop with done + completed when the turn made no tool calls,
otherwise execute the calls, append the single follow-up user message of
tool_result blocks, and loop. -/
def runLoop (cfg : RunnerConfig) (execf : String → GoMap → ToolResult)
    (clock : Nat → Int) :
    List (Except String (List StreamEvent)) → Nat → RunState → RunState
  | [], _, st =>
      { st with
        events := st.events ++ [RunEvent.errorRE "provider error: stream closed"]
        store := UpdateSessionStatus st.store "failed" }
  | turn :: rest, i, st =>
      let reason := st.budget.Exceeded (clock i)
      if reason ≠ "" then
        { st with
          events := st.events ++ [RunEvent.budgetExceeded reason]
          store := UpdateSessionStatus st.store "completed" }
      else
        match turn with
        | .error e =>
            { st with
              events := st.events ++ [RunEvent.errorRE ("provider error: " ++ e)]
              store := UpdateSessionStatus st.store "failed" }
        | .ok evs =>
            let acc := processStream evs
            let st1 := { st with events := st.events ++ acc.emitted }
            if acc.streamError then
              { st1 with store := UpdateSessionStatus st1.store "failed" }
            else
              let st2 := { st1 with
                           budget := recordUsage st1.budget acc.usage (acc.toolCalls.length : Int)
                           store := recordCost st1.store acc.usage }
              let st3 := { st2 with
                           messages := st2.messages ++
                             [buildAssistantMessage acc.assistantText acc.toolCalls] }
              if acc.toolCalls = [] then
                { st3 with
                  events := st3.events ++ [RunEvent.doneRE (st3.budget.Summary (clock i))]
                  store := UpdateSessionStatus st3.store "completed" }
              else
                let r := execCalls cfg execf st3.store acc.toolCalls
                runLoop cfg execf clock rest (i + 1)
                  { st3 with
                    store := r.2.1
                    events := st3.events ++ r.2.2
                    messages := st3.messages ++ [{ Role := "user", Content := r.1 }] }

/-! ## Concrete scenarios used by the theorems -/

def isAccepted (r : Except String String) : Bool :=
  match r with
  | .ok _ => true
  | .error _ => false

/-- Filesystem of the prefix-trap scenario: the sandbox root is /tmp/repo,
the sibling directory /tmp/repo-evil holds secrets.txt, and inside the
root the symlink link points at the sibling, so the joined path
/tmp/repo/link/secrets.txt resolves to /tmp/repo-evil/secrets.txt. -/
def trapFS : GoFS :=
  { evalSymlinks := fun p =>
      if p = "/tmp/repo/link/secrets.txt" then .ok "/tmp/repo-evil/secrets.txt"
      else if p = "/tmp/repo-evil/secrets.txt" then .ok "/tmp/repo-evil/secrets.txt"
      else .notExist }

/-- Filesystem of the symlink-escape scenario: /repo/innocent.txt is a
symlink to a file outside the root, /repo/link2 is a symlink to a file
below the root. -/
def symFS : GoFS :=
  { evalSymlinks := fun p =>
      if p = "/repo/innocent.txt" then .ok "/outside/secret.txt"
      else if p = "/repo/link2" then .ok "/repo/sub/real.txt"
      else .notExist }

/-- Filesystem of the SSE-variant symlink-escape scenario: inside the
root /srv/app, the symlink data points at the sibling /srv/app-backup, so
data/creds.txt resolves to /srv/app-backup/creds.txt, a path outside the
root; ok_link resolves to a file below the root. -/
def escapeFS : GoFS :=
  { evalSymlinks := fun p =>
      if p = "/srv/app/data/creds.txt" then .ok "/srv/app-backup/creds.txt"
      else if p = "/srv/app/ok_link" then .ok "/srv/app/cfg/real.yaml"
      else .notExist }

/-! ## Claim theorems: sandbox -/

/-! ## Derived definitions and concrete scenarios for the theorems -/

/-- Filesystem holding /repo/blob.dat, a small regular file whose first
byte is NUL and whose extension is not on the banned list. -/
def binFS : SSESandbox.ReadFS :=
  { evalSymlinks := fun p =>
      if p = "/repo/blob.dat" then .ok "/repo/blob.dat" else .notExist
    stat := fun p =>
      if p = "/repo/blob.dat" then
        some { isDir := false, size := 3, content := [0, 65, 66] }
      else none }

/-- Filesystem for the witness of the amended C9: a directory, an
oversized file (600 KiB), a banned-extension file and a small source
file, all under the root /w. -/
def guardFS : SSESandbox.ReadFS :=
  { evalSymlinks := fun p =>
      if p = "/w/sub" then .ok "/w/sub"
      else if p = "/w/big.txt" then .ok "/w/big.txt"
      else if p = "/w/pic.png" then .ok "/w/pic.png"
      else if p = "/w/main.go" then .ok "/w/main.go"
      else .notExist
    stat := fun p =>
      if p = "/w/sub" then some { isDir := true, size := 0, content := [] }
      else if p = "/w/big.txt" then some { isDir := false, size := 614400, content := [] }
      else if p = "/w/main.go" then some { isDir := false, size := 2, content := [112, 97] }
      else none }

/-- A sequence of Record calls, applied in order. -/
def applyRecords (bt : BudgetTracker) (recs : List (Int × Int × Rat × Int)) : BudgetTracker :=
  recs.foldl (fun b r => b.Record r.1 r.2.1 r.2.2.1 r.2.2.2) bt

def fn0 : GoMap → ToolResult := fun m => { Content := getStr m "text", IsError := false }

def tools0 : List (String × (GoMap → ToolResult)) := [("echo", fn0)]

def params0 : GoMap := [("text", GoVal.str "hi")]

def defaultEntryRef : LogEntryRef :=
  { ToolName := "", ParamsRef := 0,
    Result := { Content := "", IsError := false }, DurationMs := 0 }

def auditHeap0 : Heap := [[("file", GoVal.str "a.go")]]

def logger0 : ToolLogger :=
  { entries := [{ ToolName := "view_lines", ParamsRef := 0,
                  Result := { Content := "ok", IsError := false }, DurationMs := 1 }] }

def fullChan : Chan :=
  { cap := sessionChanCap
    buf := List.replicate sessionChanCap { Event := "thought", Data := "x" } }

def nextEv : SSEEvent := { Event := "tool_call", Data := "y" }

/-- The tool calls appearing as blocks, in order. -/
def blockToolCalls : List Block → List ToolCall
  | [] => []
  | Block.toolCallB tc :: rest => tc :: blockToolCalls rest
  | _ :: rest => blockToolCalls rest

/-- The toolCallId fields of the tool_result blocks, in order. -/
def blockResultIds : List Block → List String
  | [] => []
  | Block.toolResultB id _ _ :: rest => id :: blockResultIds rest
  | _ :: rest => blockResultIds rest

def toolCallBlocks (m : Message) : List ToolCall := blockToolCalls m.Content

def toolResultIds (m : Message) : List String := blockResultIds m.Content

/-- A message is well-paired with its predecessor: a user message must
follow an assistant message and its tool_result ids must equal, in
order, the ids of the predecessor's tool calls. -/
def checkPair (prev m : Message) : Bool :=
  m.Role != "user" ||
  (prev.Role == "assistant" && (toolResultIds m == (toolCallBlocks prev).map ToolCall.ID))

def chainOK : Message → List Message → Bool
  | _, [] => true
  | prev, m :: rest => checkPair prev m && chainOK m rest

/-- Every user message of the transcript directly follows an assistant
message and matches it index-by-index on tool-call ids; the transcript
does not open with a user message. -/
def transcriptOK : List Message → Bool
  | [] => true
  | m :: rest => (m.Role != "user") && chainOK m rest

/-- Concrete two-tool-call turn for the C4 witness. -/
def evsTools : List StreamEvent :=
  [StreamEvent.toolCallEv (some { ID := "call_1", Name := "view_lines", Params := [] }),
   StreamEvent.toolCallEv (some { ID := "call_2", Name := "search_code", Params := [] }),
   StreamEvent.doneEv none]

def cfg0 : RunnerConfig := { SessionID := "s1", ProjectID := "p1", AgentName := "single" }

def execf0 : String → GoMap → ToolResult := fun _ _ => { Content := "ok", IsError := false }

def clock0 : Nat → Int := fun _ => 0

def store0 : StoreState :=
  { findings := [], areas := [], sessionStatus := some "running", sessionCost := 0 }

def st0 : RunState :=
  { messages := [], budget := NewBudgetTracker DefaultBudget, store := store0, events := [] }

def evsDone : List StreamEvent :=
  [StreamEvent.textDelta "analysis complete",
   StreamEvent.doneEv (some { InputTokens := 10, OutputTokens := 5, CostUSD := 0 })]

def findingParams : GoMap :=
  [("title", GoVal.str "SQLi in login"),
   ("location", GoVal.str "auth.go:42"),
   ("severity", GoVal.str "high"),
   ("confidence", GoVal.str "confirmed"),
   ("description", GoVal.str "user input concatenated into SQL")]

def emptyStore : StoreState :=
  { findings := [], areas := [], sessionStatus := none, sessionCost := 0 }

/-- Claim C1: validatePath accepts only paths whose symlink-resolved form
is the root or starts with root-plus-separator, so files under a sibling
whose name merely starts with the root's name are always rejected.  The
CLI-variant Sandbox.ValidatePath does satisfy this (its isWithinRoot
appends the separator), but the SSE-variant Sandbox.ValidatePath checks
HasPrefix(resolved, root) without the separator and accepts the file
under /tmp/repo-evil when reached through a symlink inside /tmp/repo –
contradicting both the claim and that function's own documentation.  This
theorem evaluates both variants at the failing input. -/
theorem C1_prefix_trap_eval :
    SSESandbox.ValidatePath trapFS "/tmp/repo" "link/secrets.txt" =
      Except.ok "/tmp/repo-evil/secrets.txt"
    ∧ isAccepted (CoreSandbox.ValidatePath trapFS "/tmp/repo" "link/secrets.txt") = false
    ∧ isAccepted (CoreSandbox.ValidatePath trapFS "/tmp/repo" "/tmp/repo-evil/secrets.txt") = false := by
  decide

/-- Supporting lemma: for the CLI-variant sandbox, when the requested
path's joined form resolves through symlinks to q, the access is rejected
whenever q is not within the root, and accepted (returning q) whenever q
lies strictly below the root. -/
theorem core_symlink_containment (fs : GoFS) (root requested q : String)
    (h : fs.evalSymlinks (CoreSandbox.absOf root requested) = EvalRes.ok q) :
    (CoreSandbox.isWithinRoot root q = false →
      isAccepted (CoreSandbox.ValidatePath fs root requested) = false)
    ∧ (strStarts q (root ++ pathSep) = true →
      CoreSandbox.ValidatePath fs root requested = Except.ok q) := by
  constructor
  · intro hout
    simp only [CoreSandbox.ValidatePath, h, hout]
    rfl
  · intro hin
    have hw : CoreSandbox.isWithinRoot root q = true := by
      simp [CoreSandbox.isWithinRoot, strStarts] at hin ⊢
      simp [hin]
    simp only [CoreSandbox.ValidatePath, h, hw]
    rfl

/-- The containment lemma at a concrete filesystem: a symlink inside
/repo pointing at /outside/secret.txt is rejected; a symlink pointing at
/repo/sub/real.txt is accepted. -/
theorem core_symlink_containment_eval :
    isAccepted (CoreSandbox.ValidatePath symFS "/repo" "innocent.txt") = false
    ∧ CoreSandbox.ValidatePath symFS "/repo" "link2" = Except.ok "/repo/sub/real.txt" := by
  constructor
  · exact (core_symlink_containment symFS "/repo" "innocent.txt" "/outside/secret.txt"
      (by decide)).1 (by decide)
  · exact (core_symlink_containment symFS "/repo" "link2" "/repo/sub/real.txt"
      (by decide)).2 (by decide)

/-- Claim C2, evaluated at the failing input.  The claim quantifies over
every symlink whose target resolves outside the root, across both
ValidatePath implementations it cites.  The CLI-variant satisfies it (see
core_symlink_containment), but the SSE-variant accepts a symlink target
under the sibling directory /srv/app-backup — a path outside the root
/srv/app (second conjunct) — because its containment check omits the
separator, contradicting the claim and that function's own documentation.
The final conjunct shows the accepted half of the claim on the same
variant: a symlink whose terminal resolves below the root is accepted. -/
theorem C2_symlink_escape_eval :
    SSESandbox.ValidatePath escapeFS "/srv/app" "data/creds.txt" =
      Except.ok "/srv/app-backup/creds.txt"
    ∧ CoreSandbox.isWithinRoot "/srv/app" "/srv/app-backup/creds.txt" = false
    ∧ isAccepted (CoreSandbox.ValidatePath escapeFS "/srv/app" "data/creds.txt") = false
    ∧ SSESandbox.ValidatePath escapeFS "/srv/app" "ok_link" =
      Except.ok "/srv/app/cfg/real.yaml" := by
  decide

/-! ## Claim theorems: file reads -/

/-- Counterexample to claim C9 as stated: Sandbox.ReadFile happily
returns the content of a file whose initial bytes contain NUL (the
isBinary heuristic holds of it), because the read path screens by
extension, not by the NUL heuristic. -/
theorem C9_nul_read_counterexample :
    isBinary [0, 65, 66] = true
    ∧ SSESandbox.ReadFile binFS "/repo" "blob.dat" = Except.ok [0, 65, 66] := by
  decide

/-- Claim C9 (amended): Sandbox.ReadFile rejects banned binary/media
extensions, rejects directories, enforces the 500 KiB ceiling both on the
stat size and through the limited reader, and otherwise returns the
content; it performs no NUL-byte check. -/
theorem C9_read_guards (fs : SSESandbox.ReadFS) (root relPath safePath : String)
    (hv : SSESandbox.ValidatePath fs.toGoFS root relPath = Except.ok safePath) :
    (SSESandbox.bannedExts (strToLower (SSESandbox.extOf relPath)) = true →
      ∃ e, SSESandbox.ReadFile fs root relPath = Except.error e)
    ∧ ∀ info, fs.stat safePath = some info →
        ((info.isDir = true →
            ∃ e, SSESandbox.ReadFile fs root relPath = Except.error e)
        ∧ (info.size > SSESandbox.maxFileReadSize →
            ∃ e, SSESandbox.ReadFile fs root relPath = Except.error e)
        ∧ ((info.content.length : Int) > SSESandbox.maxFileReadSize →
            ∃ e, SSESandbox.ReadFile fs root relPath = Except.error e)
        ∧ (info.isDir = false → info.size ≤ SSESandbox.maxFileReadSize →
            (info.content.length : Int) ≤ SSESandbox.maxFileReadSize →
            SSESandbox.bannedExts (strToLower (SSESandbox.extOf relPath)) = false →
            SSESandbox.ReadFile fs root relPath = Except.ok info.content)) := by
  constructor
  · intro hb
    simp only [SSESandbox.ReadFile, hv, hb, if_true]
    exact ⟨_, rfl⟩
  · intro info hstat
    by_cases hb : SSESandbox.bannedExts (strToLower (SSESandbox.extOf relPath)) = true
    · refine ⟨fun _ => ?_, fun _ => ?_, fun _ => ?_, fun _ _ _ hbf => absurd hb (by simp [hbf])⟩ <;>
      · simp only [SSESandbox.ReadFile, hv, hb, if_true]
        exact ⟨_, rfl⟩
    · have hb2 : SSESandbox.bannedExts (strToLower (SSESandbox.extOf relPath)) = false := by
        simpa using hb
      refine ⟨?_, ?_, ?_, ?_⟩
      · intro hd
        simp only [SSESandbox.ReadFile, hv, hb2, hstat, hd]
        exact ⟨_, rfl⟩
      · intro hsz
        simp only [SSESandbox.ReadFile, hv, hb2, hstat]
        by_cases hd : info.isDir = true
        · simp only [hd, if_true]
          exact ⟨_, rfl⟩
        · simp only [Bool.not_eq_true] at hd
          simp only [hd, Bool.false_eq_true, if_false, if_pos hsz]
          exact ⟨_, rfl⟩
      · intro hlen
        simp only [SSESandbox.ReadFile, hv, hb2, hstat]
        by_cases hd : info.isDir = true
        · simp only [hd, if_true]
          exact ⟨_, rfl⟩
        · simp only [Bool.not_eq_true] at hd
          by_cases hsz : info.size > SSESandbox.maxFileReadSize
          · simp only [hd, Bool.false_eq_true, if_false, if_pos hsz]
            exact ⟨_, rfl⟩
          · have hlen2 : ((info.content.take (SSESandbox.maxFileReadSize + 1).toNat).length : Int) >
                SSESandbox.maxFileReadSize := by
              rw [List.length_take]
              have h1 : (SSESandbox.maxFileReadSize + 1).toNat = 512001 := by decide
              have h2 : info.content.length ≥ 512001 := by
                have h3 := hlen
                simp only [SSESandbox.maxFileReadSize] at h3
                omega
              rw [h1]
              have h4 : min 512001 info.content.length = 512001 := by omega
              rw [h4]
              decide
            simp only [hd, Bool.false_eq_true, if_false, if_neg hsz, if_pos hlen2]
            exact ⟨_, rfl⟩
      · intro hd hsz hlen hbf
        simp only [SSESandbox.ReadFile, hv, hb2, hstat, hd]
        have htake : info.content.take (SSESandbox.maxFileReadSize + 1).toNat = info.content := by
          apply List.take_of_length_le
          have h1 : (SSESandbox.maxFileReadSize + 1).toNat = 512001 := by decide
          rw [h1]
          simp only [SSESandbox.maxFileReadSize] at hlen
          omega
        rw [htake]
        have hsz2 : ¬ info.size > SSESandbox.maxFileReadSize := by omega
        have hlen2 : ¬ ((info.content.length : Int) > SSESandbox.maxFileReadSize) := by omega
        simp [hsz2, hlen2]

/-- Witness for the amended C9: the directory, the 600 KiB file and the
.png file are each refused; the small source file is read. -/
theorem C9_read_guards_witness :
    (∃ e, SSESandbox.ReadFile guardFS "/w" "sub" = Except.error e)
    ∧ (∃ e, SSESandbox.ReadFile guardFS "/w" "big.txt" = Except.error e)
    ∧ (∃ e, SSESandbox.ReadFile guardFS "/w" "pic.png" = Except.error e)
    ∧ SSESandbox.ReadFile guardFS "/w" "main.go" = Except.ok [112, 97] := by
  refine ⟨?_, ?_, ?_, ?_⟩
  · exact (((C9_read_guards guardFS "/w" "sub" "/w/sub" (by decide)).2
      { isDir := true, size := 0, content := [] } (by decide)).1 (by decide))
  · exact (((C9_read_guards guardFS "/w" "big.txt" "/w/big.txt" (by decide)).2
      { isDir := false, size := 614400, content := [] } (by decide)).2.1 (by decide))
  · exact ((C9_read_guards guardFS "/w" "pic.png" "/w/pic.png" (by decide)).1 (by decide))
  · exact (((C9_read_guards guardFS "/w" "main.go" "/w/main.go" (by decide)).2
      { isDir := false, size := 2, content := [112, 97] } (by decide)).2.2.2
      (by decide) (by decide) (by decide) (by decide))

/-! ## Claim theorems: budget tracker -/

theorem append_ne_empty_left (a b : String) (h : a ≠ "") : a ++ b ≠ "" := by
  cases a with | mk la =>
  cases b with | mk lb =>
  intro he
  apply h
  have hd : la ++ lb = [] := congrArg String.data he
  have hla : la = [] := by
    cases la with
    | nil => rfl
    | cons c cs => simp at hd
  rw [hla]

/-- Claim C5: Record is additive over all calls (each accumulator is the
initial value plus the sum of the recorded amounts, and each call counts
one turn), and Exceeded is non-empty exactly when some dimension with a
positive limit has reached that limit — so a zero limit never triggers. -/
theorem C5_budget_monotonicity :
    (∀ (bt : BudgetTracker) (recs : List (Int × Int × Rat × Int)),
        (applyRecords bt recs).budget = bt.budget
        ∧ (applyRecords bt recs).tokens = bt.tokens + (recs.map (fun r => r.1 + r.2.1)).sum
        ∧ (applyRecords bt recs).costUSD = bt.costUSD + (recs.map (fun r => r.2.2.1)).sum
        ∧ (applyRecords bt recs).toolCalls = bt.toolCalls + (recs.map (fun r => r.2.2.2)).sum
        ∧ (applyRecords bt recs).turns = bt.turns + recs.length)
    ∧ (∀ (bt : BudgetTracker) (elapsed : Int),
        BudgetTracker.Exceeded bt elapsed ≠ "" ↔
          ((0 < bt.budget.MaxTokens ∧ bt.budget.MaxTokens ≤ bt.tokens)
           ∨ (0 < bt.budget.MaxCostUSD ∧ bt.budget.MaxCostUSD ≤ bt.costUSD)
           ∨ (0 < bt.budget.MaxToolCalls ∧ bt.budget.MaxToolCalls ≤ bt.toolCalls)
           ∨ (0 < bt.budget.MaxDuration ∧ bt.budget.MaxDuration ≤ elapsed)
           ∨ (0 < bt.budget.MaxTurns ∧ bt.budget.MaxTurns ≤ bt.turns))) := by
  constructor
  · intro bt recs
    induction recs generalizing bt with
    | nil => simp [applyRecords]
    | cons r rs ih =>
        have step : applyRecords bt (r :: rs) =
            applyRecords (bt.Record r.1 r.2.1 r.2.2.1 r.2.2.2) rs := rfl
        rw [step]
        obtain ⟨ih1, ih2, ih3, ih4, ih5⟩ := ih (bt.Record r.1 r.2.1 r.2.2.1 r.2.2.2)
        refine ⟨?_, ?_, ?_, ?_, ?_⟩
        · rw [ih1]; rfl
        · rw [ih2]; simp [BudgetTracker.Record]; ring
        · rw [ih3]; simp [BudgetTracker.Record]; ring
        · rw [ih4]; simp [BudgetTracker.Record]; ring
        · rw [ih5]; simp [BudgetTracker.Record]; omega
  · intro bt elapsed
    unfold BudgetTracker.Exceeded
    split_ifs with h1 h2 h3 h4 h5
    · exact ⟨fun _ => Or.inl h1,
        fun _ => by repeat first | apply append_ne_empty_left | decide⟩
    · exact ⟨fun _ => Or.inr (Or.inl h2),
        fun _ => by repeat first | apply append_ne_empty_left | decide⟩
    · exact ⟨fun _ => Or.inr (Or.inr (Or.inl h3)),
        fun _ => by repeat first | apply append_ne_empty_left | decide⟩
    · exact ⟨fun _ => Or.inr (Or.inr (Or.inr (Or.inl h4))),
        fun _ => by repeat first | apply append_ne_empty_left | decide⟩
    · exact ⟨fun _ => Or.inr (Or.inr (Or.inr (Or.inr h5))),
        fun _ => by repeat first | apply append_ne_empty_left | decide⟩
    · constructor
      · intro h
        exact absurd rfl h
      · intro hr
        rcases hr with h | h | h | h | h
        · exact absurd h h1
        · exact absurd h h2
        · exact absurd h h3
        · exact absurd h h4
        · exact absurd h h5

/-- Witness for C5: 1000+500 tokens recorded land at 1500; a tracker
whose only positive limit is 100 tokens reports exhaustion after 110
tokens; an all-zero budget never reports exhaustion. -/
theorem C5_budget_monotonicity_witness :
    (applyRecords (NewBudgetTracker DefaultBudget) [(1000, 500, (1 : Rat)/100, 2)]).tokens = 1500
    ∧ BudgetTracker.Exceeded
        (applyRecords (NewBudgetTracker
          { MaxTokens := 100, MaxCostUSD := 0, MaxToolCalls := 0,
            MaxDuration := 0, MaxTurns := 0 })
          [(60, 50, 0, 0)]) 0 ≠ ""
    ∧ BudgetTracker.Exceeded
        (applyRecords (NewBudgetTracker
          { MaxTokens := 0, MaxCostUSD := 0, MaxToolCalls := 0,
            MaxDuration := 0, MaxTurns := 0 })
          [(999999, 999999, 999, 999)]) 0 = "" := by
  refine ⟨?_, ?_, ?_⟩
  · rw [(C5_budget_monotonicity.1 (NewBudgetTracker DefaultBudget)
      [(1000, 500, (1 : Rat)/100, 2)]).2.1]
    decide
  · exact (C5_budget_monotonicity.2 _ 0).mpr (Or.inl (by decide))
  · decide

/-! ## Claim theorems: executor, audit log, broker -/

theorem mapLookup_insert_self (m : GoMap) (k : String) (v : GoVal) :
    mapLookup (mapInsert m k v) k = some v := by
  induction m with
  | nil => simp [mapInsert, mapLookup]
  | cons kv rest ih =>
      obtain ⟨k2, v2⟩ := kv
      by_cases h : k2 = k
      · simp [mapInsert, h, mapLookup]
      · simp [mapInsert, h, mapLookup, ih]

theorem lookup_clean_ctx (m : GoMap) : mapLookup (cleanParamsOf m) "__ctx" = none := by
  induction m with
  | nil => rfl
  | cons kv rest ih =>
      obtain ⟨k2, v2⟩ := kv
      by_cases h : k2 = "__ctx"
      · simp [cleanParamsOf, h, ih]
      · simp [cleanParamsOf, h, mapLookup, ih]

theorem lookup_clean_other (m : GoMap) (k : String) (h : k ≠ "__ctx") :
    mapLookup (cleanParamsOf m) k = mapLookup m k := by
  have hcck : ¬ ("__ctx" = k) := fun he => h he.symm
  induction m with
  | nil => rfl
  | cons kv rest ih =>
      obtain ⟨k2, v2⟩ := kv
      by_cases h2 : k2 = "__ctx"
      · subst h2
        simp only [cleanParamsOf, ne_eq, not_true_eq_false, if_false, mapLookup]
        rw [if_neg hcck]
        exact ih
      · simp only [cleanParamsOf, ne_eq, h2, not_false_eq_true, if_true, mapLookup]
        by_cases h3 : k2 = k
        · rw [if_pos h3, if_pos h3]
        · rw [if_neg h3, if_neg h3]
          exact ih

/-- Claim C10: on the normal execution path, ToolExecutor.Execute leaves
the "__ctx" context entry in the caller's parameter map (the map it
returns is the caller's map with "__ctx" inserted, and the key is present
after the call), while every audit entry it writes carries a parameter
copy from which "__ctx" has been stripped and which agrees with the
caller's map on every other key. -/
theorem C10_ctx_mutation (tools : List (String × (GoMap → ToolResult)))
    (toolName : String) (params : GoMap) (d : Int) (fn : GoMap → ToolResult)
    (h : lookupTool tools toolName = some fn) :
    (ToolExecutor.Execute tools toolName params d).2.1 = mapInsert params "__ctx" GoVal.ctxVal
    ∧ mapLookup (ToolExecutor.Execute tools toolName params d).2.1 "__ctx" = some GoVal.ctxVal
    ∧ ∀ e ∈ (ToolExecutor.Execute tools toolName params d).2.2,
        mapLookup e.Params "__ctx" = none
        ∧ ∀ k, k ≠ "__ctx" →
            mapLookup e.Params k = mapLookup (ToolExecutor.Execute tools toolName params d).2.1 k := by
  refine ⟨?_, ?_, ?_⟩
  · simp only [ToolExecutor.Execute, h]
  · simp only [ToolExecutor.Execute, h]
    exact mapLookup_insert_self _ _ _
  · intro e he
    simp only [ToolExecutor.Execute, h, List.mem_singleton] at he
    subst he
    refine ⟨lookup_clean_ctx _, fun k hk => ?_⟩
    simp only [ToolExecutor.Execute, h]
    exact lookup_clean_other _ k hk

/-- Witness for C10 at a concrete one-tool executor. -/
theorem C10_ctx_mutation_witness :
    mapLookup (ToolExecutor.Execute tools0 "echo" params0 1).2.1 "__ctx" = some GoVal.ctxVal
    ∧ ∀ e ∈ (ToolExecutor.Execute tools0 "echo" params0 1).2.2,
        mapLookup e.Params "__ctx" = none := by
  have h := C10_ctx_mutation tools0 "echo" params0 1 fn0 rfl
  exact ⟨h.2.1, fun e he => (h.2.2 e he).1⟩

/-- Claim C8, evaluated at the failing input: the snapshot entry returned
by Entries shares its Params map cell with the stored entry, so writing
one key through the snapshot's reference changes what the logger's stored
history shows — the snapshot is shallow, not deep.  The final conjunct
records that the log itself is append-only. -/
theorem C8_shallow_snapshot_eval :
    (ToolLogger.Entries logger0).length = logger0.entries.length
    ∧ ((ToolLogger.Entries logger0).getD 0 defaultEntryRef).ParamsRef
        = (logger0.entries.getD 0 defaultEntryRef).ParamsRef
    ∧ viewEntryParams auditHeap0 (logger0.entries.getD 0 defaultEntryRef)
        = [("file", GoVal.str "a.go")]
    ∧ viewEntryParams
        (heapWrite auditHeap0
          ((ToolLogger.Entries logger0).getD 0 defaultEntryRef).ParamsRef
          "file" (GoVal.str "evil"))
        (logger0.entries.getD 0 defaultEntryRef)
        = [("file", GoVal.str "evil")]
    ∧ (ToolLogger.Log logger0 defaultEntryRef).entries = logger0.entries ++ [defaultEntryRef] := by
  decide

set_option maxRecDepth 4096 in
/-- Claim C7, evaluated at the failing input: on a full 256-slot session
channel, SSEBroker.Publish indeed drops the oldest event, enqueues the
new one and stays within capacity without blocking — but the runner's own
Runner.publishEvent is a bare channel send, which on the same full
channel cannot complete (the runner blocks), contradicting the claim and
the function's own non-blocking comment. -/
theorem C7_publish_blocking_eval :
    Runner.publishEvent fullChan nextEv = none
    ∧ (SSEBroker.Publish fullChan nextEv).2 = false
    ∧ (SSEBroker.Publish fullChan nextEv).1.buf
        = List.replicate (sessionChanCap - 1) { Event := "thought", Data := "x" } ++ [nextEv]
    ∧ (SSEBroker.Publish fullChan nextEv).1.buf.length = sessionChanCap := by
  decide

/-! ## Claim theorems: runner loop -/

theorem chainOK_append (xs : List Message) (prev : Message) (ys : List Message) :
    chainOK prev (xs ++ ys) = (chainOK prev xs && chainOK (xs.getLastD prev) ys) := by
  induction xs generalizing prev with
  | nil => simp [chainOK, List.getLastD]
  | cons m rest ih =>
      simp only [List.cons_append, chainOK, List.append_eq, ih m, List.getLastD_cons,
                 Bool.and_assoc]

theorem checkPair_notUser (prev m : Message) (h : m.Role ≠ "user") :
    checkPair prev m = true := by
  simp [checkPair, bne, h]

theorem transcriptOK_append_one (msgs : List Message) (am : Message)
    (h : transcriptOK msgs = true) (ha : am.Role = "assistant") :
    transcriptOK (msgs ++ [am]) = true := by
  have hau : am.Role ≠ "user" := by rw [ha]; decide
  cases msgs with
  | nil =>
      simp [transcriptOK, chainOK, bne, hau]
  | cons m rest =>
      simp only [transcriptOK, List.cons_append, Bool.and_eq_true] at h ⊢
      refine ⟨h.1, ?_⟩
      rw [chainOK_append]
      simp [h.2, chainOK, checkPair_notUser _ am hau]

theorem transcriptOK_append_pair (msgs : List Message) (am um : Message)
    (h : transcriptOK msgs = true) (ha : am.Role = "assistant")
    (hp : checkPair am um = true) :
    transcriptOK (msgs ++ [am, um]) = true := by
  have hau : am.Role ≠ "user" := by rw [ha]; decide
  cases msgs with
  | nil =>
      simp [transcriptOK, chainOK, bne, hau, hp]
  | cons m rest =>
      simp only [transcriptOK, List.cons_append, Bool.and_eq_true] at h ⊢
      refine ⟨h.1, ?_⟩
      rw [chainOK_append]
      simp [h.2, chainOK, checkPair_notUser _ am hau, hp]

theorem blockToolCalls_map (tcs : List ToolCall) :
    blockToolCalls (tcs.map (fun tc => Block.toolCallB tc)) = tcs := by
  induction tcs with
  | nil => rfl
  | cons tc rest ih => simp [blockToolCalls, ih]

theorem toolCallBlocks_build (text : String) (tcs : List ToolCall) :
    toolCallBlocks (buildAssistantMessage text tcs) = tcs := by
  simp only [toolCallBlocks, buildAssistantMessage]
  by_cases h : text = ""
  · simp [h, blockToolCalls_map]
  · simp [h, blockToolCalls, blockToolCalls_map]

theorem execCalls_ids (cfg : RunnerConfig) (execf : String → GoMap → ToolResult) :
    ∀ (tcs : List ToolCall) (st : StoreState),
      blockResultIds (execCalls cfg execf st tcs).1 = tcs.map ToolCall.ID := by
  intro tcs
  induction tcs with
  | nil => intro st; rfl
  | cons tc rest ih =>
      intro st
      simp [execCalls, blockResultIds, ih]

theorem buildAssistantMessage_role (text : String) (tcs : List ToolCall) :
    (buildAssistantMessage text tcs).Role = "assistant" := rfl

theorem checkPair_turn (cfg : RunnerConfig) (execf : String → GoMap → ToolResult)
    (text : String) (tcs : List ToolCall) (st : StoreState) :
    checkPair (buildAssistantMessage text tcs)
      { Role := "user", Content := (execCalls cfg execf st tcs).1 } = true := by
  simp [checkPair, toolResultIds, execCalls_ids, toolCallBlocks_build,
        buildAssistantMessage_role]

/-- Claim C4: in every turn with tool calls, the runner appends one
follow-up user message whose tool_result blocks carry, index by index,
the ids of the preceding assistant message's tool calls — stated as a
transcript invariant preserved by the whole loop, together with the exact
per-turn correspondence between the two message constructors the loop
uses. -/
theorem C4_turn_ordering (cfg : RunnerConfig) (execf : String → GoMap → ToolResult)
    (clock : Nat → Int) :
    (∀ (turns : List (Except String (List StreamEvent))) (i : Nat) (st : RunState),
      transcriptOK st.messages = true →
      transcriptOK (runLoop cfg execf clock turns i st).messages = true)
    ∧ (∀ (text : String) (tcs : List ToolCall) (st : StoreState),
      toolResultIds { Role := "user", Content := (execCalls cfg execf st tcs).1 }
        = (toolCallBlocks (buildAssistantMessage text tcs)).map ToolCall.ID) := by
  constructor
  · intro turns
    induction turns with
    | nil =>
        intro i st h
        exact h
    | cons turn rest ih =>
        intro i st h
        simp only [runLoop]
        split_ifs with hb
        · exact h
        · cases turn with
          | error e => exact h
          | ok evs =>
              by_cases hse : (processStream evs).streamError = true
              · simp only [hse, if_true]
                exact h
              · simp only [Bool.not_eq_true] at hse
                simp only [hse, Bool.false_eq_true, if_false]
                by_cases htc : (processStream evs).toolCalls = []
                · simp only [htc, if_pos rfl]
                  exact transcriptOK_append_one _ _ h rfl
                · simp only [if_neg htc]
                  apply ih
                  show transcriptOK ((st.messages ++ [_]) ++ [_]) = true
                  rw [List.append_assoc]
                  exact transcriptOK_append_pair _ _ _ h rfl
                    (checkPair_turn cfg execf _ _ _)
  · intro text tcs st
    simp [toolResultIds, execCalls_ids, toolCallBlocks_build]

/-- Witness for C4: a concrete run of one two-tool-call turn followed by
a concluding turn keeps the transcript invariant. -/
theorem C4_turn_ordering_witness :
    transcriptOK (runLoop cfg0 execf0 clock0
      [Except.ok evsTools, Except.ok [StreamEvent.textDelta "bye"]] 0 st0).messages = true :=
  (C4_turn_ordering cfg0 execf0 clock0).1
    [Except.ok evsTools, Except.ok [StreamEvent.textDelta "bye"]] 0 st0 (by decide)

/-- Claim C3: a provider turn that yields no tool calls (and no stream
error) makes the runner emit a done event carrying the budget usage
summary, set the session status to completed, and terminate — the result
does not depend on any later scripted turns. -/
theorem C3_done_on_no_tool_calls (cfg : RunnerConfig)
    (execf : String → GoMap → ToolResult) (clock : Nat → Int)
    (evs : List StreamEvent) (rest : List (Except String (List StreamEvent)))
    (i : Nat) (st : RunState)
    (hb : st.budget.Exceeded (clock i) = "")
    (hse : (processStream evs).streamError = false)
    (htc : (processStream evs).toolCalls = []) :
    (runLoop cfg execf clock (Except.ok evs :: rest) i st).store.sessionStatus
      = some "completed"
    ∧ (runLoop cfg execf clock (Except.ok evs :: rest) i st).events
      = (st.events ++ (processStream evs).emitted)
        ++ [RunEvent.doneRE
              ((recordUsage st.budget (processStream evs).usage 0).Summary (clock i))]
    ∧ runLoop cfg execf clock (Except.ok evs :: rest) i st
      = runLoop cfg execf clock [Except.ok evs] i st := by
  refine ⟨?_, ?_, ?_⟩ <;>
    simp [runLoop, hb, hse, htc, UpdateSessionStatus]

/-- Witness for C3 on a concrete no-tool-call turn; the trailing scripted
provider error is never consumed. -/
theorem C3_done_on_no_tool_calls_witness :
    (runLoop cfg0 execf0 clock0 [Except.ok evsDone, Except.error "boom"] 0 st0).store.sessionStatus
      = some "completed"
    ∧ runLoop cfg0 execf0 clock0 [Except.ok evsDone, Except.error "boom"] 0 st0
      = runLoop cfg0 execf0 clock0 [Except.ok evsDone] 0 st0 := by
  have h := C3_done_on_no_tool_calls cfg0 execf0 clock0 evsDone [Except.error "boom"] 0 st0
    (by decide) (by decide) (by decide)
  exact ⟨h.1, h.2.2⟩

/-- filter gives the empty list when any gives false. -/
theorem filter_nil_of_any_false {α : Type} (p : α → Bool) (l : List α)
    (h : l.any p = false) : l.filter p = [] := by
  induction l with
  | nil => rfl
  | cons a rest ih =>
      simp only [List.any_cons, Bool.or_eq_false_iff] at h
      simp [List.filter, h.1, ih h.2]

/-- Claim C6: two record_finding calls with the same (projectId,
location, title) leave exactly one matching finding in the store; the
second call's result has isError = false and content that declares the
duplicate, and it changes nothing. -/
theorem C6_finding_dedup (cfg : RunnerConfig) (st0 : StoreState) (p1 p2 : GoMap)
    (ht : getStr p2 "title" = getStr p1 "title")
    (hl : getStr p2 "location" = getStr p1 "location")
    (ht1 : getStr p1 "title" ≠ "")
    (hl1 : getStr p1 "location" ≠ "")
    (hd1 : getStr p1 "description" ≠ "")
    (hd2 : getStr p2 "description" ≠ "")
    (h0 : FindingExists st0 cfg.ProjectID (getStr p1 "location") (getStr p1 "title") = false) :
    ((handleRecordFinding cfg (handleRecordFinding cfg st0 p1).2.1 p2).2.1.findings.filter
        (fun f => f.ProjectID == cfg.ProjectID
          && f.Location == getStr p1 "location"
          && f.Title == getStr p1 "title")).length = 1
    ∧ (handleRecordFinding cfg (handleRecordFinding cfg st0 p1).2.1 p2).1.IsError = false
    ∧ (handleRecordFinding cfg (handleRecordFinding cfg st0 p1).2.1 p2).1.Content
        = duplicateFindingMsg (getStr p1 "title") (getStr p1 "location")
    ∧ (handleRecordFinding cfg (handleRecordFinding cfg st0 p1).2.1 p2).2.1
        = (handleRecordFinding cfg st0 p1).2.1 := by
  have hc1 : ¬ (getStr p1 "title" = "" ∨ getStr p1 "location" = "" ∨ getStr p1 "description" = "") := by
    push_neg
    exact ⟨ht1, hl1, hd1⟩
  have hc2 : ¬ (getStr p2 "title" = "" ∨ getStr p2 "location" = "" ∨ getStr p2 "description" = "") := by
    push_neg
    refine ⟨?_, ?_, hd2⟩
    · rw [ht]; exact ht1
    · rw [hl]; exact hl1
  have e1 : (handleRecordFinding cfg st0 p1).2.1 = CreateFinding st0
      { SessionID := cfg.SessionID
        ProjectID := cfg.ProjectID
        Title := getStr p1 "title"
        Location := getStr p1 "location"
        Category := getStr p1 "category"
        Severity := getStr p1 "severity"
        Confidence := getStr p1 "confidence"
        Description := getStr p1 "description"
        DataFlow := getStr p1 "data_flow"
        FoundBy := cfg.AgentName } := by
    simp [handleRecordFinding, hc1, h0]
  have hex : FindingExists (CreateFinding st0
      { SessionID := cfg.SessionID
        ProjectID := cfg.ProjectID
        Title := getStr p1 "title"
        Location := getStr p1 "location"
        Category := getStr p1 "category"
        Severity := getStr p1 "severity"
        Confidence := getStr p1 "confidence"
        Description := getStr p1 "description"
        DataFlow := getStr p1 "data_flow"
        FoundBy := cfg.AgentName }) cfg.ProjectID
      (getStr p2 "location") (getStr p2 "title") = true := by
    rw [ht, hl]
    simp [FindingExists, CreateFinding, List.any_append]
  rw [e1]
  simp only [handleRecordFinding, hc2, hex, if_false, if_pos]
  refine ⟨?_, by trivial, by rw [ht, hl], by trivial⟩
  simp only [CreateFinding, List.filter_append]
  have h0f : st0.findings.any (fun f => f.ProjectID == cfg.ProjectID
      && f.Location == getStr p1 "location" && f.Title == getStr p1 "title") = false := h0
  rw [filter_nil_of_any_false _ _ h0f]
  simp

/-- Witness for C6 at a concrete finding recorded twice. -/
theorem C6_finding_dedup_witness :
    ((handleRecordFinding cfg0 (handleRecordFinding cfg0 emptyStore findingParams).2.1
        findingParams).2.1.findings.filter
        (fun f => f.ProjectID == cfg0.ProjectID
          && f.Location == getStr findingParams "location"
          && f.Title == getStr findingParams "title")).length = 1
    ∧ (handleRecordFinding cfg0 (handleRecordFinding cfg0 emptyStore findingParams).2.1
        findingParams).1.IsError = false
    ∧ (handleRecordFinding cfg0 (handleRecordFinding cfg0 emptyStore findingParams).2.1
        findingParams).1.Content
        = duplicateFindingMsg "SQLi in login" "auth.go:42" := by
  have h := C6_finding_dedup cfg0 emptyStore findingParams findingParams rfl rfl
    (by decide) (by decide) (by decide) (by decide) (by decide)
  exact ⟨h.1, h.2.1, h.2.2.1⟩

end Argus

